import Mathlib

/-
Verification development for the mika BitTorrent tracker.

Part 1 embeds the legacy redis-backed tracker (src/announce.go and the
unnamed main file): the error reply helper, the bencoded failure body,
announce-request parsing, and the response-dictionary composition.

Part 2 embeds the memory backing store (src/store/memory/memory.go):
TorrentStore.Sync/Get/Add/Delete, UserStore.Sync/Add and
PeerStore.GetN/Reap over functional stores keyed by strings.

Library code (chihaya/bencode, net.ParseIP, strconv) and repository
packages that are not under src/ (the model package, query parsing
helpers) are modelled from the specification; each such definition
carries a doc comment saying so.
-/

namespace Mika

/-! ## Part 1: legacy tracker (announce.go, main file) -/

/-- Message code MSG_OK from the legacy main file. -/
def MSG_OK : Nat := 0

/-- Message code MSG_INVALID_REQ_TYPE. -/
def MSG_INVALID_REQ_TYPE : Nat := 100

/-- Message code MSG_MISSING_INFO_HASH. -/
def MSG_MISSING_INFO_HASH : Nat := 101

/-- Message code MSG_MISSING_PEER_ID. -/
def MSG_MISSING_PEER_ID : Nat := 102

/-- Message code MSG_MISSING_PORT. -/
def MSG_MISSING_PORT : Nat := 103

/-- Message code MSG_INVALID_PORT. -/
def MSG_INVALID_PORT : Nat := 104

/-- Message code MSG_INVALID_INFO_HASH. -/
def MSG_INVALID_INFO_HASH : Nat := 150

/-- Message code MSG_INVALID_PEER_ID. -/
def MSG_INVALID_PEER_ID : Nat := 151

/-- Message code MSG_INVALID_NUM_WANT. -/
def MSG_INVALID_NUM_WANT : Nat := 152

/-- Message code MSG_INFO_HASH_NOT_FOUND. -/
def MSG_INFO_HASH_NOT_FOUND : Nat := 200

/-- Message code MSG_CLIENT_REQUEST_TOO_FAST. -/
def MSG_CLIENT_REQUEST_TOO_FAST : Nat := 500

/-- Message code MSG_MALFORMED_REQUEST. -/
def MSG_MALFORMED_REQUEST : Nat := 901

/-- Message code MSG_GENERIC_ERROR. -/
def MSG_GENERIC_ERROR : Nat := 900

/-- The resp_msg map from the legacy main file: message code to failure
reason string.  A code outside the map yields the empty string (Go zero
value of a missing map key). -/
def respMsg (code : Nat) : String :=
  if code = MSG_INVALID_REQ_TYPE then "Invalid request type"
  else if code = MSG_MISSING_INFO_HASH then "info_hash missing from request"
  else if code = MSG_MISSING_PEER_ID then "peer_id missing from request"
  else if code = MSG_MISSING_PORT then "port missing from request"
  else if code = MSG_INVALID_PORT then "Invalid port"
  else if code = MSG_INVALID_INFO_HASH then "Torrent info hash must be 20 characters"
  else if code = MSG_INVALID_PEER_ID then "Peer ID Invalid"
  else if code = MSG_INVALID_NUM_WANT then "num_want invalid"
  else if code = MSG_INFO_HASH_NOT_FOUND then "info_hash was not found, better luck next time"
  else if code = MSG_CLIENT_REQUEST_TOO_FAST then "Slot down there jimmy."
  else if code = MSG_MALFORMED_REQUEST then "Malformed request"
  else if code = MSG_GENERIC_ERROR then "Generic Error :("
  else ""

/-- Bencoding of one byte string: its length in decimal, a colon, the bytes.
Models the chihaya bencode library used by responseError. -/
def bencodeStr (s : String) : String :=
  toString s.length ++ ":" ++ s

/-- The responseError helper: bencodes the single-key dictionary whose only
key is "failure reason" mapped to the message, exactly as the bencode
encoder serialises it. -/
def responseError (message : String) : String :=
  "d" ++ bencodeStr "failure reason" ++ bencodeStr message ++ "e"

/-- The oops helper from the legacy main file.  It replies through
c.String(msg_code, responseError(resp_msg[msg_code])): the first component
is the HTTP status actually sent (the message code itself), the second is
the bencoded failure body. -/
def oops (msgCode : Nat) : Nat × String :=
  (msgCode, responseError (respMsg msgCode))

/-- Event constant STOPPED (iota 0 in announce.go). -/
def STOPPED : Nat := 0

/-- Event constant STARTED (iota 1). -/
def STARTED : Nat := 1

/-- Event constant COMPLETED (iota 2). -/
def COMPLETED : Nat := 2

/-- Event constant ANNOUNCE (iota 3). -/
def ANNOUNCE : Nat := 3

/-- Lookup of a query parameter in the parsed parameter map, modelled as an
association list (first binding wins, mirroring unique Go map keys). -/
def paramGet (params : List (String × String)) (k : String) : Option String :=
  match params with
  | [] => none
  | e :: rest => if e.1 = k then some e.2 else paramGet rest k

/-- Lookup with the Go zero value: a missing key reads as the empty string. -/
def paramGetD (params : List (String × String)) (k : String) : String :=
  (paramGet params k).getD ""

/-- The event switch in NewAnnounce: "started", "stopped" and "complete"
map to their constants and every other string (including the empty string
of an absent parameter, and the string "completed") falls through to
ANNOUNCE. -/
def parseEvent (eventName : String) : Nat :=
  if eventName = "started" then STARTED
  else if eventName = "stopped" then STOPPED
  else if eventName = "complete" then COMPLETED
  else ANNOUNCE

/-- Event of a parsed query: NewAnnounce reads q.Params["event"] with the
Go zero value for a missing key. -/
def eventOf (params : List (String × String)) : Nat :=
  parseEvent (paramGetD params "event")

/-- Numeric value of a digit list, most significant first. -/
def digitsToNat (l : List Char) : Nat :=
  l.foldl (fun a c => a * 10 + (c.toNat - 48)) 0

/-- Nonempty and all decimal digits. -/
def isDigits (l : List Char) : Bool :=
  !l.isEmpty && l.all (fun c => c.isDigit)

/-- Modelled from the spec: the query helper q.Uint64 wraps
strconv.ParseUint(s, 10, 64) (query.go is not under src/): it accepts a
nonempty run of decimal digits whose value fits in 64 bits and rejects
everything else. -/
def parseUint64 (s : String) : Option Nat :=
  let l := s.data
  if isDigits l then
    let v := digitsToNat l
    if v < 18446744073709551616 then some v else none
  else none

/-- q.Uint64 on a parameter: a missing key reads as "" and fails to parse. -/
def paramUint64 (params : List (String × String)) (k : String) : Option Nat :=
  parseUint64 (paramGetD params k)

/-- UMax from the legacy main file: max for uint64. -/
def UMax (a b : Nat) : Nat :=
  if a > b then a else b

/-- Split a character list on a separator, never returning an empty list,
mirroring strings.Split (the empty string splits to one empty field). -/
def splitOnChar (c : Char) (l : List Char) : List (List Char) :=
  l.foldr
    (fun ch acc =>
      match acc with
      | [] => [[ch]]
      | a :: rest => if ch = c then [] :: a :: rest else (ch :: a) :: rest)
    [[]]

/-- One dotted-quad octet: one to three decimal digits valued at most 255. -/
def parseOctet (l : List Char) : Option Nat :=
  if isDigits l && decide (l.length ≤ 3) then
    let v := digitsToNat l
    if v ≤ 255 then some v else none
  else none

/-- Modelled from the spec: getIP wraps net.ParseIP followed by To4
(library code).  It is modelled as dotted-quad IPv4 parsing into the
4-byte big-endian value; inputs that are not dotted quads (including the
IPv6 corner in which ParseIP succeeds but To4 yields nil) are modelled as
parse failures. -/
def getIP (s : String) : Option Nat :=
  match splitOnChar '.' s.data with
  | [a, b, c, d] =>
    match parseOctet a, parseOctet b, parseOctet c, parseOctet d with
    | some oa, some ob, some oc, some od => some (((oa * 256 + ob) * 256 + oc) * 256 + od)
    | _, _, _, _ => none
  | _ => none

/-- Modelled from the spec: getNumWant (not under src/) reads num_want,
defaults when absent, and clamps to the configured maximum of 50. -/
def getNumWant (params : List (String × String)) (dflt : Nat) : Nat :=
  match paramUint64 params "num_want" with
  | none => dflt
  | some n => min n 50

/-- Failure of NewAnnounce: either an error value with its message, or the
runtime panic raised when RemoteAddr has no colon (s[1] out of range). -/
inductive AnnounceError where
  | emsg (s : String) : AnnounceError
  | epanic : AnnounceError
deriving DecidableEq

/-- The AnnounceRequest record from announce.go.  uint64 fields are Nats
(their parsed values are below 2^64 by construction) and the IPv4 address
is its 4-byte big-endian value. -/
structure AnnounceRequest where
  compact : Bool
  downloaded : Nat
  corrupt : Nat
  event : Nat
  ipv4 : Nat
  infoHash : String
  left : Nat
  numWant : Nat
  peerID : String
  port : Nat
  uploaded : Nat
deriving DecidableEq

/-- The source-address resolution block of NewAnnounce: the ip query
parameter, then the X-Forwarded-For header, then the host part of
RemoteAddr split on a colon (indexing s[1] panics when there is none). -/
def resolveIP (params : List (String × String)) (xff : String) (remoteAddr : String) :
    Except AnnounceError Nat :=
  match getIP (paramGetD params "ip") with
  | some ip => .ok ip
  | none =>
    if xff ≠ "" then
      match getIP xff with
      | some ip => .ok ip
      | none => .error (.emsg "Invalid ip header")
    else
      let parts := splitOnChar ':' remoteAddr.data
      if parts.length < 2 then .error .epanic
      else
        match getIP (String.mk (parts.headD [])) with
        | some ip => .ok ip
        | none => .error (.emsg "Invalid ip hash")

/-- NewAnnounce from announce.go, over the parsed query parameters, the
X-Forwarded-For header value and the transport RemoteAddr.  The validation
order, default values and error messages follow the source. -/
def newAnnounce (params : List (String × String)) (xff : String) (remoteAddr : String) :
    Except AnnounceError AnnounceRequest :=
  let compact := paramGetD params "compact" ≠ "0"
  let event := eventOf params
  let numWant := getNumWant params 30
  match paramGet params "info_hash" with
  | none => .error (.emsg "Invalid info hash")
  | some infoHash =>
    match paramGet params "peer_id" with
    | none => .error (.emsg "Invalid peer_id")
    | some peerID =>
      match resolveIP params xff remoteAddr with
      | .error e => .error e
      | .ok ipv4 =>
        match paramUint64 params "port" with
        | none => .error (.emsg "Invalid port")
        | some port =>
          if port < 1024 ∨ port > 65535 then .error (.emsg "Invalid port")
          else
            match paramUint64 params "left" with
            | none => .error (.emsg "No left value")
            | some left0 =>
              match paramUint64 params "downloaded" with
              | none => .error (.emsg "Invalid downloaded value")
              | some downloaded0 =>
                match paramUint64 params "uploaded" with
                | none => .error (.emsg "Invalid uploaded value")
                | some uploaded0 =>
                  let corrupt := match paramUint64 params "corrupt" with
                    | none => 0
                    | some c => UMax 0 c
                  .ok {
                    compact := compact
                    corrupt := corrupt
                    downloaded := UMax 0 downloaded0
                    event := event
                    ipv4 := ipv4
                    infoHash := infoHash
                    left := UMax 0 left0
                    numWant := numWant
                    peerID := peerID
                    port := port
                    uploaded := UMax 0 uploaded0 }

/-- The port parameter of a query is invalid: absent, unparsable, or
outside the range 1024 to 65535. -/
def portInvalid (params : List (String × String)) : Bool :=
  match paramUint64 params "port" with
  | none => true
  | some p => decide (p < 1024) || decide (p > 65535)

/-- A peer of the legacy redis-backed tracker, with the fields the
response composition needs. -/
structure OldPeer where
  peerId : String
  ip : Nat
  port : Nat
deriving DecidableEq

/-- torrent.HasPeer: the swarm already holds a peer with this id. -/
def hasPeer (sw : List OldPeer) (pid : String) : Bool :=
  sw.any (fun p => p.peerId == pid)

/-- Modelled from the spec: torrent.DelPeer (torrent.go is not under
src/) removes the announcing peer from the swarm by peer id. -/
def delPeer (sw : List OldPeer) (pid : String) : List OldPeer :=
  sw.filter (fun p => p.peerId != pid)

/-- Modelled from the spec: torrent.GetPeers (not under src/) returns up
to numWant peers of the swarm, and nil when the swarm has none.  It takes
only the connection and numWant, so it cannot depend on the announce
event. -/
def getPeersOld (sw : List OldPeer) (numWant : Nat) : Option (List OldPeer) :=
  if sw.isEmpty then none else some (sw.take numWant)

/-- Big-endian compact form of one peer: 4 IPv4 bytes then 2 port bytes. -/
def compactPeer (p : OldPeer) : List Nat :=
  [p.ip / 16777216 % 256, p.ip / 65536 % 256, p.ip / 256 % 256, p.ip % 256,
   p.port / 256 % 256, p.port % 256]

/-- Modelled from the spec: makeCompactPeers (not under src/)
concatenates the 6-byte compact encodings, excluding the requesting
peer. -/
def makeCompactPeers (peers : List OldPeer) (selfId : String) : List Nat :=
  (peers.filter (fun p => p.peerId != selfId)).foldl (fun acc p => acc ++ compactPeer p) []

/-- A value of the bencoded response dictionary. -/
inductive RVal where
  | num (n : Nat) : RVal
  | bytes (bs : List Nat) : RVal
deriving DecidableEq

/-- The response dictionary built by HandleAnnounce: complete, incomplete,
interval and min interval are always inserted; the peers key is inserted
only when the peer lookup returned a non-nil list. -/
def announceDict (seeders leechers intv minIntv : Nat) (peersBytes : Option (List Nat)) :
    List (String × RVal) :=
  [("complete", .num seeders), ("incomplete", .num leechers),
   ("interval", .num intv), ("min interval", .num minIntv)] ++
  (match peersBytes with
   | none => []
   | some bs => [("peers", .bytes bs)])

/-- Key membership in a response dictionary. -/
def hasKey (d : List (String × RVal)) (k : String) : Bool :=
  d.any (fun e => e.1 == k)

/-- The swarm-membership step of HandleAnnounce: a stopped event removes
the announcing peer (torrent.DelPeer); every other event adds it when
absent (torrent.AddPeer guarded by HasPeer). -/
def updateSwarm (sw : List OldPeer) (self : OldPeer) (event : Nat) : List OldPeer :=
  if event = STOPPED then delPeer sw self.peerId
  else if hasPeer sw self.peerId then sw else sw ++ [self]

/-- The response composition of HandleAnnounce after authentication and
validation: mutate the swarm for the event, look up peers with
torrent.GetPeers regardless of the event, and attach them under the peers
key whenever the lookup is non-nil. -/
def handleAnnounceDict (sw : List OldPeer) (self : OldPeer) (event numWant : Nat)
    (seeders leechers intv minIntv : Nat) : List (String × RVal) :=
  let sw2 := updateSwarm sw self event
  let peers := getPeersOld sw2 numWant
  announceDict seeders leechers intv minIntv
    (peers.map (fun ps => makeCompactPeers ps self.peerId))

/-! ## Part 2: memory backing store (src/store/memory/memory.go) -/

/-- Errors of the consts package as used by the memory store (the package
is not under src/; the variants are those the store returns). -/
inductive StoreErr where
  | duplicate : StoreErr
  | invalidInfoHash : StoreErr
  | invalidPeerID : StoreErr
  | invalidTorrentID : StoreErr
  | unauthorized : StoreErr
deriving DecidableEq

/-- Modelled from the spec: model.Torrent (the model package is not under
src/) with the fields the memory store reads and writes: the infohash
(modelled as a string key), descriptive name, the three 64-bit swarm
counters and the is_deleted flag. -/
structure Torrent where
  infoHash : String
  name : String
  totalUploaded : Nat
  totalDownloaded : Nat
  totalCompleted : Nat
  isDeleted : Bool
deriving DecidableEq

/-- Modelled from the spec: model.TorrentStats, the additive delta record
for one torrent. -/
structure TorrentStats where
  uploaded : Nat
  downloaded : Nat
  snatches : Nat
deriving DecidableEq

/-- Modelled from the spec: model.User with the fields the memory store
touches. -/
structure User where
  passkey : String
  userId : Nat
  announces : Nat
  downloaded : Nat
  uploaded : Nat
deriving DecidableEq

/-- Modelled from the spec: model.UserStats, the additive delta record
for one user. -/
structure UserStats where
  announces : Nat
  downloaded : Nat
  uploaded : Nat
deriving DecidableEq

/-- Modelled from the spec: model.Peer with the fields the memory peer
store touches; last_announce is a unix timestamp. -/
structure Peer where
  peerId : String
  ip : Nat
  port : Nat
  uploaded : Nat
  downloaded : Nat
  announces : Nat
  announceLast : Nat
deriving DecidableEq

/-- Wrapping 64-bit addition: Go uint64 overflow semantics. -/
def addW (a b : Nat) : Nat :=
  (a + b) % 18446744073709551616

/-- The counter update of TorrentStore.Sync for one found torrent:
TotalUploaded, TotalDownloaded and TotalCompleted grow by the batched
deltas with uint64 wrapping. -/
def applyTorrentStats (t : Torrent) (st : TorrentStats) : Torrent :=
  { t with
    totalUploaded := addW t.totalUploaded st.uploaded
    totalDownloaded := addW t.totalDownloaded st.downloaded
    totalCompleted := addW t.totalCompleted st.snatches }

/-- The counter update of UserStore.Sync for one found user. -/
def applyUserStats (u : User) (st : UserStats) : User :=
  { u with
    announces := addW u.announces st.announces
    downloaded := addW u.downloaded st.downloaded
    uploaded := addW u.uploaded st.uploaded }

/-- One iteration of a Sync loop: if the key is in the store, apply the
delta to the stored record; a missing key is skipped. -/
def syncStep {V S : Type} (applyF : V → S → V) (s : String → Option V) (e : String × S) :
    String → Option V :=
  fun k => if k = e.1 then Option.map (fun v => applyF v e.2) (s e.1) else s k

/-- A whole Sync loop over the batch entries (a Go map rendered as its
entry list). -/
def syncFold {V S : Type} (applyF : V → S → V) (s : String → Option V)
    (b : List (String × S)) : String → Option V :=
  b.foldl (syncStep applyF) s

/-- TorrentStore.Sync on the torrents map: the store transformer. -/
def torrentSync (s : String → Option Torrent) (b : List (String × TorrentStats)) :
    String → Option Torrent :=
  syncFold applyTorrentStats s b

/-- TorrentStore.Sync as called: it mutates the map and always returns a
nil error, rendered as the pair of the returned error and the new map. -/
def torrentSyncR (s : String → Option Torrent) (b : List (String × TorrentStats)) :
    Option StoreErr × (String → Option Torrent) :=
  (none, syncFold applyTorrentStats s b)

/-- UserStore.Sync on the users map: the store transformer. -/
def userSync (s : String → Option User) (b : List (String × UserStats)) :
    String → Option User :=
  syncFold applyUserStats s b

/-- UserStore.Sync as called: always a nil error plus the new map. -/
def userSyncR (s : String → Option User) (b : List (String × UserStats)) :
    Option StoreErr × (String → Option User) :=
  (none, syncFold applyUserStats s b)

/-- TorrentStore.Get: a missing entry or one whose IsDeleted flag is set
yields ErrInvalidInfoHash; otherwise the snapshot of the record. -/
def torrentGet (s : String → Option Torrent) (ih : String) : Except StoreErr Torrent :=
  match s ih with
  | none => .error .invalidInfoHash
  | some t => if t.isDeleted then .error .invalidInfoHash else .ok t

/-- TorrentStore.Add: an existing infohash is rejected with ErrDuplicate
and the map is left unchanged; otherwise the torrent is inserted and a
nil error returned. -/
def torrentAddR (s : String → Option Torrent) (t : Torrent) :
    Option StoreErr × (String → Option Torrent) :=
  match s t.infoHash with
  | some _ => (some .duplicate, s)
  | none => (none, fun ih => if ih = t.infoHash then some t else s ih)

/-- TorrentStore.Delete: the memory store removes the entry outright and
ignores the hard flag (its NOTE says it always permanently deletes); the
returned error is always nil. -/
def torrentDeleteR (s : String → Option Torrent) (ih : String) (_hard : Bool) :
    Option StoreErr × (String → Option Torrent) :=
  (none, fun k => if k = ih then none else s k)

/-- UserStore.Add: unconditionally writes the record under its passkey,
overwriting any existing user, and returns a nil error. -/
def userAddR (s : String → Option User) (usr : User) :
    Option StoreErr × (String → Option User) :=
  (none, fun pk => if pk = usr.passkey then some usr else s pk)

/-- util.MinInt on the slice bound of GetN. -/
def MinInt (a b : Nat) : Nat :=
  if a < b then a else b

/-- PeerStore.GetN: an unknown infohash yields ErrInvalidTorrentID;
otherwise the slice p[0 : min(limit, len(p))], the deterministic prefix of
the swarm vector. -/
def peerGetN (ps : String → Option (List Peer)) (ih : String) (limit : Nat) :
    Except StoreErr (List Peer) :=
  match ps ih with
  | none => .error .invalidTorrentID
  | some p => .ok (p.take (MinInt limit p.length))

/-- Modelled from the spec: Peer.Expired (model package not under src/)
holds when last_announce plus the peer TTL is before now. -/
def Peer.expired (p : Peer) (now ttl : Nat) : Bool :=
  decide (p.announceLast + ttl < now)

/-- Modelled from the spec: Swarm.Remove (model package not under src/)
removes the peer with the given id from the swarm. -/
def swarmRemove (sw : List Peer) (pid : String) : List Peer :=
  sw.filter (fun q => q.peerId != pid)

/-- The Reap loop body for one swarm: walk the peers of the swarm and
remove every one that has expired. -/
def reapSwarm (now ttl : Nat) (sw : List Peer) : List Peer :=
  sw.foldl (fun acc p => if p.expired now ttl then swarmRemove acc p.peerId else acc) sw

/-- PeerStore.Reap: every swarm present in the peer map is reaped under
the store lock. -/
def peerReap (now ttl : Nat) (ps : String → Option (List Peer)) :
    String → Option (List Peer) :=
  fun ih => (ps ih).map (reapSwarm now ttl)

/-- The per-key stats of a batch, in entry order. -/
def keyStats {S : Type} (k : String) (b : List (String × S)) : List S :=
  b.filterMap (fun e => if e.1 = k then some e.2 else none)

/-- Right-nested combination of a list of stats; none for the empty
list. -/
def chainAddR {S : Type} (add : S → S → S) (l : List S) : Option S :=
  l.foldr (fun s acc => some (match acc with | none => s | some t => add s t)) none

/-- The claim-side key-wise additive merge: a batch bm merges a batch b
when, for every key, bm carries exactly one entry holding the combined
stats of all entries of b for that key (and no entry for keys b lacks). -/
def isKeywiseMerge {S : Type} (add : S → S → S) (bm b : List (String × S)) : Prop :=
  ∀ k, keyStats k bm = (chainAddR add (keyStats k b)).toList

/-- Plain per-counter sum of torrent deltas, the merge the claim words
describe. -/
def statsAddT (x y : TorrentStats) : TorrentStats :=
  ⟨x.uploaded + y.uploaded, x.downloaded + y.downloaded, x.snatches + y.snatches⟩

/-- Plain per-counter sum of user deltas. -/
def statsAddU (x y : UserStats) : UserStats :=
  ⟨x.announces + y.announces, x.downloaded + y.downloaded, x.uploaded + y.uploaded⟩

/-! ## Concrete instances used by witnesses and counterexamples -/

/-- A complete valid announce query. -/
def goodParams : List (String × String) :=
  [("info_hash", "aaaaaaaaaaaaaaaaaaaa"), ("peer_id", "bbbbbbbbbbbbbbbbbbbb"),
   ("port", "30000"), ("left", "0"), ("downloaded", "0"), ("uploaded", "0"),
   ("ip", "1.2.3.4")]

/-- The same query with a privileged port. -/
def badPortParams : List (String × String) :=
  [("info_hash", "aaaaaaaaaaaaaaaaaaaa"), ("peer_id", "bbbbbbbbbbbbbbbbbbbb"),
   ("port", "80"), ("left", "0"), ("downloaded", "0"), ("uploaded", "0"),
   ("ip", "1.2.3.4")]

/-- The parse of goodParams. -/
def annEx : AnnounceRequest :=
  { compact := true, corrupt := 0, downloaded := 0, event := 3, ipv4 := 16909060,
    infoHash := "aaaaaaaaaaaaaaaaaaaa", left := 0, numWant := 30,
    peerID := "bbbbbbbbbbbbbbbbbbbb", port := 30000, uploaded := 0 }

/-- A torrent record that is not deleted. -/
def tEx : Torrent :=
  { infoHash := "A", name := "t", totalUploaded := 5, totalDownloaded := 7,
    totalCompleted := 1, isDeleted := false }

/-- A torrent record with the deleted flag set. -/
def tExDel : Torrent :=
  { infoHash := "D", name := "td", totalUploaded := 0, totalDownloaded := 0,
    totalCompleted := 0, isDeleted := true }

/-- A one-torrent store holding tEx under "A". -/
def sEx : String → Option Torrent :=
  fun ih => if ih = "A" then some tEx else none

/-- A store holding the deleted torrent tExDel under "D". -/
def sExDel : String → Option Torrent :=
  fun ih => if ih = "D" then some tExDel else none

/-- Torrent delta batches over the key "A" and their key-wise merge. -/
def bT1 : List (String × TorrentStats) := [("A", ⟨1, 2, 3⟩)]

/-- Second torrent delta batch. -/
def bT2 : List (String × TorrentStats) := [("A", ⟨10, 20, 30⟩)]

/-- Key-wise additive merge of bT1 and bT2. -/
def bTm : List (String × TorrentStats) := [("A", ⟨11, 22, 33⟩)]

/-- A user record. -/
def uEx : User :=
  { passkey := "pk1", userId := 42, announces := 1, downloaded := 2, uploaded := 3 }

/-- A one-user store holding uEx. -/
def sUEx : String → Option User :=
  fun pk => if pk = "pk1" then some uEx else none

/-- User delta batches over the key "pk1" and their key-wise merge. -/
def bU1 : List (String × UserStats) := [("pk1", ⟨1, 4, 9⟩)]

/-- Second user delta batch. -/
def bU2 : List (String × UserStats) := [("pk1", ⟨2, 5, 10⟩)]

/-- Key-wise additive merge of bU1 and bU2. -/
def bUm : List (String × UserStats) := [("pk1", ⟨3, 9, 19⟩)]

/-- A peer that announced long ago. -/
def pStale : Peer :=
  { peerId := "PS", ip := 1, port := 2000, uploaded := 0, downloaded := 0,
    announces := 3, announceLast := 0 }

/-- A peer that announced recently. -/
def pFresh : Peer :=
  { peerId := "PF", ip := 2, port := 3000, uploaded := 0, downloaded := 0,
    announces := 5, announceLast := 95 }

/-- A peer map with one swarm holding the stale and the fresh peer. -/
def psEx : String → Option (List Peer) :=
  fun ih => if ih = "A" then some [pStale, pFresh] else none

/-! ## Theorems -/

/-- C1: the legacy handler answers every protocol error through oops,
which passes the numeric message code itself to c.String as the HTTP
status.  At the failing input (an announce whose passkey is unknown, so
the handler calls oops MSG_GENERIC_ERROR) the reply carries HTTP status
900, not 200, while the body is the bencoded failure dictionary the claim
describes. -/
theorem announce_error_reply_status :
    oops MSG_GENERIC_ERROR = (900, "d14:failure reason16:Generic Error :(e") ∧
    (oops MSG_GENERIC_ERROR).1 ≠ 200 := by
  constructor
  · rfl
  · decide

/-- C3: the event switch of NewAnnounce maps started and stopped and an
absent parameter as claimed, but the protocol string completed falls
through to ANNOUNCE because the switch matches the string complete
instead. -/
theorem event_parsing_eval :
    eventOf [("event", "started")] = STARTED ∧
    eventOf [("event", "stopped")] = STOPPED ∧
    eventOf [] = ANNOUNCE ∧
    eventOf [("event", "completed")] = ANNOUNCE ∧
    COMPLETED ≠ ANNOUNCE ∧
    eventOf [("event", "complete")] = COMPLETED := by
  decide

/-- C2 counterexample: a stopped announce against a swarm that still
holds another peer produces a response dictionary that does contain the
peers key, because HandleAnnounce runs torrent.GetPeers and attaches its
result for every event. -/
theorem stopped_announce_keeps_peers_key :
    hasKey
      (handleAnnounceDict [⟨"P1", 1, 2000⟩, ⟨"P2", 2, 3000⟩] ⟨"P1", 1, 2000⟩
        STOPPED 30 1 0 1800 900) "peers" = true := by
  decide

/-- C2 amended: a stopped announce still yields the well-formed
dictionary with complete, incomplete, interval and min interval, but the
peers key is not suppressed for stopped events: it is present exactly
when the peer lookup on the post-removal swarm returns a non-nil list. -/
theorem stopped_announce_response (sw : List OldPeer) (self : OldPeer)
    (numWant seeders leechers intv minIntv : Nat) :
    hasKey (handleAnnounceDict sw self STOPPED numWant seeders leechers intv minIntv)
      "complete" = true ∧
    hasKey (handleAnnounceDict sw self STOPPED numWant seeders leechers intv minIntv)
      "incomplete" = true ∧
    hasKey (handleAnnounceDict sw self STOPPED numWant seeders leechers intv minIntv)
      "interval" = true ∧
    hasKey (handleAnnounceDict sw self STOPPED numWant seeders leechers intv minIntv)
      "min interval" = true ∧
    (hasKey (handleAnnounceDict sw self STOPPED numWant seeders leechers intv minIntv)
      "peers" = true ↔ getPeersOld (delPeer sw self.peerId) numWant ≠ none) := by
  have hupd : updateSwarm sw self STOPPED = delPeer sw self.peerId := by
    simp [updateSwarm, STOPPED]
  cases h : getPeersOld (delPeer sw self.peerId) numWant <;>
    simp [handleAnnounceDict, hupd, h, announceDict, hasKey]

/-- A successful parse pins the port: it is the parsed value of the port
parameter and it passed the range check. -/
theorem newAnnounce_ok_port (params : List (String × String)) (xff ra : String)
    (ann : AnnounceRequest) (h : newAnnounce params xff ra = .ok ann) :
    paramUint64 params "port" = some ann.port ∧ ¬(ann.port < 1024 ∨ ann.port > 65535) := by
  unfold newAnnounce at h
  dsimp only at h
  cases hih : paramGet params "info_hash" with
  | none => rw [hih] at h; exact Except.noConfusion h
  | some ihv =>
  rw [hih] at h
  dsimp only at h
  cases hpid : paramGet params "peer_id" with
  | none => rw [hpid] at h; exact Except.noConfusion h
  | some pidv =>
  rw [hpid] at h
  dsimp only at h
  cases hip : resolveIP params xff ra with
  | error e => rw [hip] at h; exact Except.noConfusion h
  | ok ipv =>
  rw [hip] at h
  dsimp only at h
  cases hp : paramUint64 params "port" with
  | none => rw [hp] at h; exact Except.noConfusion h
  | some p =>
  rw [hp] at h
  dsimp only at h
  by_cases hrange : p < 1024 ∨ p > 65535
  · rw [if_pos hrange] at h
    exact Except.noConfusion h
  · rw [if_neg hrange] at h
    cases hl : paramUint64 params "left" with
    | none => rw [hl] at h; exact Except.noConfusion h
    | some l0 =>
    rw [hl] at h
    dsimp only at h
    cases hd : paramUint64 params "downloaded" with
    | none => rw [hd] at h; exact Except.noConfusion h
    | some d0 =>
    rw [hd] at h
    dsimp only at h
    cases hu : paramUint64 params "uploaded" with
    | none => rw [hu] at h; exact Except.noConfusion h
    | some u0 =>
    rw [hu] at h
    dsimp only at h
    have hrec := Except.ok.inj h
    subst hrec
    exact ⟨rfl, hrange⟩

/-- C8: announce parsing rejects every absent, unparsable or out-of-range
port (no successful parse exists for such a query, and when the earlier
info_hash, peer_id and address checks pass the error is exactly the
invalid-port error), so every successfully parsed announce request
carries a port between 1024 and 65535. -/
theorem announce_port_range :
    (∀ params xff ra ann, newAnnounce params xff ra = .ok ann →
      1024 ≤ ann.port ∧ ann.port ≤ 65535) ∧
    (∀ params xff ra, portInvalid params = true →
      ∀ ann, newAnnounce params xff ra ≠ .ok ann) ∧
    (∀ params xff ra ihv pidv ipv, paramGet params "info_hash" = some ihv →
      paramGet params "peer_id" = some pidv → resolveIP params xff ra = .ok ipv →
      portInvalid params = true →
      newAnnounce params xff ra = .error (.emsg "Invalid port")) := by
  refine ⟨?_, ?_, ?_⟩
  · intro params xff ra ann h
    have hp := newAnnounce_ok_port params xff ra ann h
    omega
  · intro params xff ra hbad ann h
    have hp := newAnnounce_ok_port params xff ra ann h
    unfold portInvalid at hbad
    rw [hp.1] at hbad
    simp at hbad
    omega
  · intro params xff ra ihv pidv ipv hih hpid hip hbad
    unfold newAnnounce
    rw [hih, hpid, hip]
    unfold portInvalid at hbad
    cases hp : paramUint64 params "port" with
    | none => rfl
    | some p =>
      rw [hp] at hbad
      simp at hbad
      dsimp only
      rw [if_pos hbad]

/-- C8 witness: the good query parses with port 30000 inside the range,
and the privileged-port query admits no successful parse. -/
theorem announce_port_range_witness :
    (1024 ≤ annEx.port ∧ annEx.port ≤ 65535) ∧
    newAnnounce badPortParams "" "" ≠ .ok annEx := by
  refine ⟨announce_port_range.1 goodParams "" "" annEx (by rfl), ?_⟩
  exact announce_port_range.2.1 badPortParams "" "" (by decide) annEx

/-! ### Sync lemmas -/

theorem keyStats_nil {S : Type} (k : String) : keyStats k ([] : List (String × S)) = [] :=
  rfl

theorem keyStats_cons {S : Type} (k : String) (e : String × S) (rest : List (String × S)) :
    keyStats k (e :: rest) =
      if e.1 = k then e.2 :: keyStats k rest else keyStats k rest := by
  by_cases h : e.1 = k <;> simp [keyStats, h]

theorem syncFold_apply {V S : Type} (applyF : V → S → V) :
    ∀ (b : List (String × S)) (s : String → Option V) (k : String),
      syncFold applyF s b k = Option.map (fun v => (keyStats k b).foldl applyF v) (s k) := by
  intro b
  induction b with
  | nil =>
    intro s k
    cases h : s k <;> simp [syncFold, keyStats, h]
  | cons e rest ih =>
    intro s k
    have hstep : syncFold applyF s (e :: rest) k = syncFold applyF (syncStep applyF s e) rest k :=
      rfl
    rw [hstep, ih, keyStats_cons]
    by_cases hk : k = e.1
    · rw [if_pos hk.symm]
      simp only [syncStep, if_pos hk, hk]
      cases hs : s e.1 <;> simp [hs]
    · rw [if_neg (fun hc => hk hc.symm)]
      simp only [syncStep, if_neg hk]

theorem syncFold_none {V S : Type} (applyF : V → S → V) (b : List (String × S))
    (s : String → Option V) (k : String) (h : s k = none) :
    syncFold applyF s b k = none := by
  rw [syncFold_apply, h]
  rfl

theorem keyStats_eq_nil_of_not_mem {S : Type} (k : String) :
    ∀ (b : List (String × S)), k ∉ b.map Prod.fst → keyStats k b = [] := by
  intro b
  induction b with
  | nil => intro _; rfl
  | cons e rest ih =>
    intro hmem
    rw [keyStats_cons]
    have h1 : e.1 ≠ k := fun hc => hmem (by simp [hc])
    rw [if_neg h1]
    exact ih (fun hc => hmem (by simp [hc]))

theorem syncFold_not_mem {V S : Type} (applyF : V → S → V) (b : List (String × S))
    (s : String → Option V) (k : String) (h : k ∉ b.map Prod.fst) :
    syncFold applyF s b k = s k := by
  rw [syncFold_apply, keyStats_eq_nil_of_not_mem k b h]
  cases hs : s k <;> simp

theorem chainAddR_cons {S : Type} (add : S → S → S) (a : S) (l : List S) :
    chainAddR add (a :: l) =
      some (match chainAddR add l with | none => a | some t => add a t) :=
  rfl

theorem chainAddR_eq_none_iff {S : Type} (add : S → S → S) (l : List S) :
    chainAddR add l = none ↔ l = [] := by
  cases l <;> simp [chainAddR]

theorem foldl_applyF_chain {V S : Type} (applyF : V → S → V) (add : S → S → S)
    (Happ : ∀ (v : V) (a b : S), applyF (applyF v a) b = applyF v (add a b)) :
    ∀ (l : List S) (w : V) (s : S),
      List.foldl applyF (applyF w s) l =
        applyF w (match chainAddR add l with | none => s | some t => add s t) := by
  intro l
  induction l with
  | nil =>
    intro w s
    simp [chainAddR]
  | cons a l2 ih =>
    intro w s
    have h1 : List.foldl applyF (applyF w s) (a :: l2) =
        List.foldl applyF (applyF (applyF w s) a) l2 := rfl
    rw [h1, ih (applyF w s) a, Happ, chainAddR_cons]

theorem syncFold_merge {V S : Type} (applyF : V → S → V) (add : S → S → S)
    (Happ : ∀ (v : V) (a b : S), applyF (applyF v a) b = applyF v (add a b))
    (s : String → Option V) (b bm : List (String × S))
    (Hm : isKeywiseMerge add bm b) :
    syncFold applyF s bm = syncFold applyF s b := by
  funext k
  rw [syncFold_apply, syncFold_apply]
  cases hs : s k with
  | none => rfl
  | some v =>
    have Hk := Hm k
    cases hkb : keyStats k b with
    | nil =>
      rw [hkb] at Hk
      simp only [chainAddR, List.foldr_nil, Option.toList_none] at Hk
      rw [Hk]
    | cons a l2 =>
      rw [hkb, chainAddR_cons] at Hk
      simp only [Option.toList_some] at Hk
      rw [Hk]
      simp only [Option.map_some', List.foldl_cons, List.foldl_nil]
      rw [foldl_applyF_chain applyF add Happ l2 v a]

theorem applyTorrentStats_comp (t : Torrent) (x y : TorrentStats) :
    applyTorrentStats (applyTorrentStats t x) y = applyTorrentStats t (statsAddT x y) := by
  cases t
  simp only [applyTorrentStats, statsAddT, addW, Torrent.mk.injEq, and_true, true_and]
  omega

theorem applyUserStats_comp (u : User) (x y : UserStats) :
    applyUserStats (applyUserStats u x) y = applyUserStats u (statsAddU x y) := by
  cases u
  simp only [applyUserStats, statsAddU, addW, User.mk.injEq, and_true, true_and]
  omega

/-- C7: syncing two delta batches whose keys are all present in the store
one after the other produces exactly the store produced by one sync of
their key-wise additive merge (per-key counter sums), both for the
torrent store and for the user store. -/
theorem sync_batches_additive :
    (∀ (s : String → Option Torrent) (b1 b2 bm : List (String × TorrentStats)),
      (∀ e ∈ b1 ++ b2, s e.1 ≠ none) → isKeywiseMerge statsAddT bm (b1 ++ b2) →
      torrentSync (torrentSync s b1) b2 = torrentSync s bm) ∧
    (∀ (s : String → Option User) (b1 b2 bm : List (String × UserStats)),
      (∀ e ∈ b1 ++ b2, s e.1 ≠ none) → isKeywiseMerge statsAddU bm (b1 ++ b2) →
      userSync (userSync s b1) b2 = userSync s bm) := by
  constructor
  · intro s b1 b2 bm _ Hm
    have h1 : torrentSync s (b1 ++ b2) = torrentSync (torrentSync s b1) b2 := by
      simp [torrentSync, syncFold, List.foldl_append]
    rw [← h1]
    exact (syncFold_merge applyTorrentStats statsAddT applyTorrentStats_comp s
      (b1 ++ b2) bm Hm).symm
  · intro s b1 b2 bm _ Hm
    have h1 : userSync s (b1 ++ b2) = userSync (userSync s b1) b2 := by
      simp [userSync, syncFold, List.foldl_append]
    rw [← h1]
    exact (syncFold_merge applyUserStats statsAddU applyUserStats_comp s
      (b1 ++ b2) bm Hm).symm

/-- C7 witness: concrete single-key batches over the example stores; the
merge hypothesis is checked by case analysis on the key. -/
theorem sync_batches_additive_witness :
    torrentSync (torrentSync sEx bT1) bT2 = torrentSync sEx bTm ∧
    userSync (userSync sUEx bU1) bU2 = userSync sUEx bUm := by
  constructor
  · refine sync_batches_additive.1 sEx bT1 bT2 bTm (by decide) ?_
    intro k
    by_cases hk : k = "A"
    · subst hk
      decide
    · simp [bT1, bT2, bTm, keyStats, chainAddR, hk, Ne.symm hk]
  · refine sync_batches_additive.2 sUEx bU1 bU2 bUm (by decide) ?_
    intro k
    by_cases hk : k = "pk1"
    · subst hk
      decide
    · simp [bU1, bU2, bUm, keyStats, chainAddR, hk, Ne.symm hk]

/-- C9: syncing a batch never touches keys absent from the store: the
torrent and user sync calls still return a nil error, an absent key stays
absent, and keys outside the batch are left untouched. -/
theorem sync_missing_key_noop :
    (∀ (s : String → Option Torrent) (b : List (String × TorrentStats)),
      (torrentSyncR s b).1 = none) ∧
    (∀ (s : String → Option Torrent) (b : List (String × TorrentStats)) (k : String),
      s k = none → torrentSync s b k = none) ∧
    (∀ (s : String → Option Torrent) (b : List (String × TorrentStats)) (k : String),
      k ∉ b.map Prod.fst → torrentSync s b k = s k) ∧
    (∀ (s : String → Option User) (b : List (String × UserStats)),
      (userSyncR s b).1 = none) ∧
    (∀ (s : String → Option User) (b : List (String × UserStats)) (k : String),
      s k = none → userSync s b k = none) ∧
    (∀ (s : String → Option User) (b : List (String × UserStats)) (k : String),
      k ∉ b.map Prod.fst → userSync s b k = s k) := by
  refine ⟨fun s b => rfl, ?_, ?_, fun s b => rfl, ?_, ?_⟩
  · intro s b k h
    exact syncFold_none applyTorrentStats b s k h
  · intro s b k h
    exact syncFold_not_mem applyTorrentStats b s k h
  · intro s b k h
    exact syncFold_none applyUserStats b s k h
  · intro s b k h
    exact syncFold_not_mem applyUserStats b s k h

/-- C9 witness: syncing a batch keyed by an absent infohash or passkey
against the example stores leaves those keys absent. -/
theorem sync_missing_key_noop_witness :
    torrentSync sEx [("B", ⟨1, 1, 1⟩)] "B" = none ∧
    userSync sUEx [("pk9", ⟨1, 1, 1⟩)] "pk9" = none := by
  constructor
  · exact sync_missing_key_noop.2.1 sEx [("B", ⟨1, 1, 1⟩)] "B" (by decide)
  · exact sync_missing_key_noop.2.2.2.2.1 sUEx [("pk9", ⟨1, 1, 1⟩)] "pk9" (by decide)

/-- C4 counterexample: a live torrent sits under key "A"; after the soft
delete (hard = false) the entry is gone from the map, so the record is
not retained with an is_deleted flag as the claim states. -/
theorem torrent_soft_delete_not_retained :
    sEx "A" = some tEx ∧ tEx.isDeleted = false ∧
    (torrentDeleteR sEx "A" false).2 "A" = none := by
  decide

/-- C4 amended: the memory TorrentStore.Delete removes the entry outright
for both values of the hard flag (the store notes it always permanently
deletes), after which Get reports the infohash invalid and every other
key is untouched; independently, Get hides any stored torrent whose
is_deleted flag is set. -/
theorem torrent_delete_always_hard :
    (∀ (s : String → Option Torrent) (ih : String) (hard : Bool),
      (torrentDeleteR s ih hard).1 = none ∧
      (torrentDeleteR s ih hard).2 ih = none ∧
      torrentGet (torrentDeleteR s ih hard).2 ih = .error .invalidInfoHash ∧
      (∀ k, k ≠ ih → (torrentDeleteR s ih hard).2 k = s k)) ∧
    (∀ (s : String → Option Torrent) (ih : String) (t : Torrent),
      s ih = some t → t.isDeleted = true → torrentGet s ih = .error .invalidInfoHash) := by
  constructor
  · intro s ih hard
    refine ⟨rfl, by simp [torrentDeleteR], by simp [torrentDeleteR, torrentGet], ?_⟩
    intro k hk
    simp [torrentDeleteR, hk]
  · intro s ih t hs hdel
    simp [torrentGet, hs, hdel]

/-- C4 witness for the amended claim: deleting "A" leaves the unrelated
key "B" alone, and the store holding a flagged torrent hides it from
Get. -/
theorem torrent_delete_always_hard_witness :
    (torrentDeleteR sEx "A" false).2 "B" = sEx "B" ∧
    torrentGet sExDel "D" = .error .invalidInfoHash := by
  constructor
  · exact (torrent_delete_always_hard.1 sEx "A" false).2.2.2 "B" (by decide)
  · exact torrent_delete_always_hard.2 sExDel "D" tExDel (by decide) (by decide)

/-- C5 counterexample: a swarm of limit + 1 = 2 peers queried with
limit 1.  GetN is a pure function of the store, so every call returns
the same value, and that value is exactly the first element — the fixed
prefix of the swarm vector, with no pseudo-random offset. -/
theorem getN_always_same_prefix :
    peerGetN psEx "A" 1 = .ok [pStale] ∧ [pStale] = [pStale, pFresh].take 1 :=
  ⟨rfl, rfl⟩

/-- C5 amended: PeerStore.GetN deterministically returns the prefix of
the swarm vector of length min(limit, swarm size) — never more than
limit peers, always the same prefix, with no offset and no requester
exclusion — and reports an unknown infohash as ErrInvalidTorrentID. -/
theorem getN_prefix_deterministic :
    (∀ (ps : String → Option (List Peer)) (ih : String) (limit : Nat) (sw : List Peer),
      ps ih = some sw →
      peerGetN ps ih limit = .ok (sw.take limit) ∧ (sw.take limit).length ≤ limit) ∧
    (∀ (ps : String → Option (List Peer)) (ih : String) (limit : Nat),
      ps ih = none → peerGetN ps ih limit = .error .invalidTorrentID) := by
  constructor
  · intro ps ih limit sw h
    constructor
    · unfold peerGetN
      rw [h]
      dsimp only
      have htake : sw.take (MinInt limit sw.length) = sw.take limit := by
        unfold MinInt
        by_cases hlt : limit < sw.length
        · rw [if_pos hlt]
        · rw [if_neg hlt]
          rw [List.take_length]
          exact (List.take_of_length_le (Nat.le_of_not_lt hlt)).symm
      rw [htake]
    · rw [List.length_take]
      exact Nat.min_le_left limit sw.length
  · intro ps ih limit h
    unfold peerGetN
    rw [h]

/-- C5 witness for the amended claim: on the two-peer example swarm with
limit 1 the call returns the one-element prefix, and an unknown key
errors. -/
theorem getN_prefix_deterministic_witness :
    (peerGetN psEx "A" 1 = .ok ([pStale, pFresh].take 1) ∧
      ([pStale, pFresh].take 1).length ≤ 1) ∧
    peerGetN psEx "B" 7 = .error .invalidTorrentID := by
  constructor
  · exact (getN_prefix_deterministic.1 psEx "A" 1 [pStale, pFresh] (by decide))
  · exact getN_prefix_deterministic.2 psEx "B" 7 (by decide)

/-! ### Reaper lemmas -/

theorem mem_of_mem_reapStep (now ttl : Nat) (acc : List Peer) (q p : Peer)
    (h : p ∈ (if q.expired now ttl then swarmRemove acc q.peerId else acc)) :
    p ∈ acc := by
  split at h
  · exact (List.mem_filter.mp h).1
  · exact h

theorem mem_of_mem_reapFold (now ttl : Nat) :
    ∀ (l acc : List Peer) (p : Peer),
      p ∈ l.foldl (fun acc q => if q.expired now ttl then swarmRemove acc q.peerId else acc) acc →
      p ∈ acc := by
  intro l
  induction l with
  | nil => intro acc p h; exact h
  | cons q rest ih =>
    intro acc p h
    exact mem_of_mem_reapStep now ttl acc q p (ih _ p h)

theorem expired_not_mem_reapFold (now ttl : Nat) :
    ∀ (l acc : List Peer) (p : Peer), p.expired now ttl = true → p ∈ l →
      p ∉ l.foldl (fun acc q => if q.expired now ttl then swarmRemove acc q.peerId else acc) acc := by
  intro l
  induction l with
  | nil =>
    intro acc p _ hmem
    exact absurd hmem (List.not_mem_nil p)
  | cons q rest ih =>
    intro acc p hexp hmem hfold
    rcases List.mem_cons.mp hmem with heq | hrest
    · subst heq
      have hacc := mem_of_mem_reapFold now ttl rest _ p hfold
      dsimp only at hacc
      rw [if_pos hexp] at hacc
      have := (List.mem_filter.mp hacc).2
      simp at this
    · exact ih _ p hexp hrest hfold

/-- C6: after one run of the Reaper no swarm of the peer store contains a
peer whose last announce has aged past the TTL. -/
theorem reap_removes_expired (now ttl : Nat) (ps : String → Option (List Peer))
    (ih : String) (sw : List Peer) (p : Peer)
    (hreap : peerReap now ttl ps ih = some sw) (hmem : p ∈ sw) :
    p.expired now ttl = false := by
  cases hps : ps ih with
  | none => rw [peerReap, hps] at hreap; exact Option.noConfusion hreap
  | some sw0 =>
    rw [peerReap, hps, Option.map_some'] at hreap
    have hsw : sw = reapSwarm now ttl sw0 := (Option.some.inj hreap).symm
    subst hsw
    by_contra hne
    have hexp : p.expired now ttl = true := by
      cases hb : p.expired now ttl
      · exact absurd hb hne
      · rfl
    have hmem0 : p ∈ sw0 := mem_of_mem_reapFold now ttl sw0 sw0 p hmem
    exact expired_not_mem_reapFold now ttl sw0 sw0 p hexp hmem0 hmem

/-- C6 witness: with now = 100 and ttl = 10 the stale peer (last announce
0) is reaped from the example swarm and the surviving fresh peer is not
expired. -/
theorem reap_removes_expired_witness :
    peerReap 100 10 psEx "A" = some [pFresh] ∧ pFresh.expired 100 10 = false := by
  constructor
  · decide
  · exact reap_removes_expired 100 10 psEx "A" [pFresh] pFresh (by decide) (by decide)

/-- C10: UserStore.Add always succeeds with a nil error and maps the
passkey to the new record, silently overwriting whatever was there,
while TorrentStore.Add rejects an already-stored infohash with
ErrDuplicate and leaves the map unchanged, inserting only when the
infohash is absent. -/
theorem user_add_overwrites_torrent_add_rejects :
    (∀ (s : String → Option User) (usr : User),
      (userAddR s usr).1 = none ∧ (userAddR s usr).2 usr.passkey = some usr ∧
      (∀ k, k ≠ usr.passkey → (userAddR s usr).2 k = s k)) ∧
    (∀ (s : String → Option Torrent) (t t0 : Torrent),
      s t.infoHash = some t0 → torrentAddR s t = (some .duplicate, s)) ∧
    (∀ (s : String → Option Torrent) (t : Torrent),
      s t.infoHash = none →
      (torrentAddR s t).1 = none ∧ (torrentAddR s t).2 t.infoHash = some t) := by
  refine ⟨?_, ?_, ?_⟩
  · intro s usr
    refine ⟨rfl, by simp [userAddR], ?_⟩
    intro k hk
    simp [userAddR, hk]
  · intro s t t0 h
    simp [torrentAddR, h]
  · intro s t h
    simp [torrentAddR, h]

/-- C10 witness: re-adding uEx over the store already holding it still
succeeds and overwrites, while re-adding tEx to the torrent store is
rejected with ErrDuplicate leaving the store as it was, and adding to an
absent key inserts. -/
theorem user_add_overwrites_torrent_add_rejects_witness :
    ((userAddR sUEx uEx).1 = none ∧ (userAddR sUEx uEx).2 uEx.passkey = some uEx ∧
      (∀ k, k ≠ uEx.passkey → (userAddR sUEx uEx).2 k = sUEx k)) ∧
    torrentAddR sEx tEx = (some .duplicate, sEx) ∧
    ((torrentAddR sExDel tEx).1 = none ∧ (torrentAddR sExDel tEx).2 tEx.infoHash = some tEx) := by
  refine ⟨user_add_overwrites_torrent_add_rejects.1 sUEx uEx, ?_, ?_⟩
  · exact user_add_overwrites_torrent_add_rejects.2.1 sEx tEx tEx (by decide)
  · exact user_add_overwrites_torrent_add_rejects.2.2 sExDel tEx (by decide)

end Mika
